import Mathlib

/-!
Shallow embedding of the export/unexport reconciliation core of the
multi-cluster networking control plane (repository Azure/mcn): the
ServiceExport controller (pkg/controllers/serviceexport/controller.go),
the EndpointSlice controller (pkg/controllers/endpointslice/controller.go),
and the parts of the data model (api/v1alpha1) they operate on.

Stores are modelled explicitly: the member-side store holds the one
ServiceExport / Service / EndpointSlice a reconciliation pass addresses,
the hub-side store is a key-value list from object name to the projected
object (all of a member's projections live in its single reserved hub
namespace, so the name is the key).  Each reconciliation pass is a pure
function from a parameter record and a world to an outcome: the new world,
the ordered list of successful store mutations it performed, and an
optional error.  Write failures are injected through boolean flags in the
parameter record, mirroring the fallible store contract.
-/

namespace Mcn

/-- metav1.Condition: one status condition on a ServiceExport. The
last-transition time is modelled as a natural number furnished by the
environment. -/
structure Condition where
  type : String
  status : String
  lastTransitionTime : Nat
  reason : String
  message : String
deriving Repr, DecidableEq

/-- metav1.ConditionTrue. -/
def conditionTrue : String := "True"

/-- metav1.ConditionFalse. -/
def conditionFalse : String := "False"

/-- Modelled from the spec: the positive validity condition type of an Export
Intent (fleetnetworkingapi.ServiceExportValid); its declaration is not among
the sources at hand, only its uses in both controllers. -/
def serviceExportValid : String := "Valid"

/-- Modelled from the spec: the conflicting-export condition type of an Export
Intent (fleetnetworkingapi.ServiceExportConflict); its declaration is not
among the sources at hand, only its use in the EndpointSlice controller. -/
def serviceExportConflict : String := "Conflict"

/-- Modelled from the spec: the cleanup marker (finalizer) string placed on a
ServiceExport (svcExportCleanupFinalizer); its declaration is not among the
sources at hand.  Only its identity matters. -/
def svcExportCleanupFinalizer : String := "networking.fleet.azure.com/svc-export-cleanup"

/-! Key-value store helpers, shared by the hub stores and by label maps.
Lookup finds the first binding of a key; erase drops every binding of the
key; put binds the key afresh. -/

/-- Look a key up in a key-value list. -/
def lookupKV {α : Type} (m : List (String × α)) (k : String) : Option α :=
  (m.find? (fun kv => kv.1 == k)).map (fun kv => kv.2)

/-- Remove a key from a key-value list. -/
def eraseKV {α : Type} (m : List (String × α)) (k : String) : List (String × α) :=
  m.filter (fun kv => kv.1 != k)

/-- Bind a key in a key-value list, replacing any previous binding. -/
def putKV {α : Type} (m : List (String × α)) (k : String) (v : α) : List (String × α) :=
  eraseKV m k ++ [(k, v)]

theorem lookupKV_eraseKV_self {α : Type} (m : List (String × α)) (k : String) :
    lookupKV (eraseKV m k) k = none := by
  induction m with
  | nil => rfl
  | cons kv rest ih =>
    by_cases h : kv.1 = k
    · simp [lookupKV, eraseKV, h, ih]
    · simp [lookupKV, eraseKV, h, ih]

theorem lookupKV_putKV_self {α : Type} (m : List (String × α)) (k : String) (v : α) :
    lookupKV (putKV m k v) k = some v := by
  induction m with
  | nil => simp [lookupKV, putKV, eraseKV]
  | cons kv rest ih =>
    by_cases h : kv.1 = k
    · simp [lookupKV, putKV, eraseKV, h, ih]
    · simp [lookupKV, putKV, eraseKV, h, ih]

theorem eraseKV_putKV_self {α : Type} (m : List (String × α)) (k : String) (v : α) :
    eraseKV (putKV m k v) k = eraseKV m k := by
  induction m with
  | nil => simp [putKV, eraseKV]
  | cons kv rest ih =>
    by_cases h : kv.1 = k
    · simp [putKV, eraseKV, h, ih]
    · simp [putKV, eraseKV, h, ih]

theorem putKV_putKV_self {α : Type} (m : List (String × α)) (k : String) (v : α) :
    putKV (putKV m k v) k v = putKV m k v := by
  unfold putKV
  rw [show eraseKV (eraseKV m k ++ [(k, v)]) k = eraseKV (putKV m k v) k from rfl,
    eraseKV_putKV_self]

/-! The data model of the ServiceExport controller. -/

/-- api/v1alpha1.ServicePort: one entry of the port projection.  TargetPort
(intstr.IntOrString) is modelled as an Int-or-String sum. -/
structure ServicePort where
  name : String
  protocol : String
  appProtocol : String
  port : Int
  targetPort : Int ⊕ String
deriving Repr, DecidableEq

/-- api/v1alpha1.InternalServiceExportSpec: the port list of an exported
Service. -/
structure InternalServiceExportSpec where
  ports : List ServicePort
deriving Repr, DecidableEq

/-- api/v1alpha1.InternalServiceExport: the hub-side projection of an exported
Service.  Its identity (name in the member's reserved hub namespace) is the
key under which the hub store holds it. -/
structure InternalServiceExport where
  spec : InternalServiceExportSpec
deriving Repr, DecidableEq

/-- fleetnetworkingapi.ServiceExport restricted to the fields the controllers
read and write: identity (`ns`/`name`, the Go field namespace is a Lean
keyword), finalizers, deletion timestamp and status conditions. -/
structure ServiceExport where
  ns : String
  name : String
  finalizers : List String
  deletionTimestamp : Option Nat
  conditions : List Condition
deriving Repr, DecidableEq

/-- corev1.Service restricted to what this core reads: the deletion timestamp
and the exported port list (everything else that eligibility may look at is
folded into the pluggable eligibility predicate). -/
structure Service where
  deletionTimestamp : Option Nat
  ports : List ServicePort
deriving Repr, DecidableEq

/-- Modelled from the spec: hasSvcExportCleanupFinalizer (body not among the
sources) — whether the ServiceExport carries the cleanup finalizer. -/
def hasSvcExportCleanupFinalizer (svcExport : ServiceExport) : Bool :=
  svcExport.finalizers.contains svcExportCleanupFinalizer

/-- Modelled from the spec: isSvcExportCleanupNeeded (body not among the
sources) — the intent carries the cleanup marker and is scheduled for
deletion (spec section 4.1 step 2). -/
def isSvcExportCleanupNeeded (svcExport : ServiceExport) : Bool :=
  hasSvcExportCleanupFinalizer svcExport && svcExport.deletionTimestamp.isSome

/-- Modelled from the spec: isSvcDeleted (body not among the sources) — the
Service is marked for deletion. -/
def isSvcDeleted (svc : Service) : Bool :=
  svc.deletionTimestamp.isSome

/-- Modelled from the spec: formatInternalSvcExportName; its body is not
among the sources, but the format is documented at the call site in
unexportSvc (controller.go 205-207): the hub name is always
ORIGINAL_NAMESPACE-ORIGINAL_NAME, e.g. namespace default, name store give
default-store. -/
def formatInternalSvcExportName (svcExport : ServiceExport) : String :=
  svcExport.ns ++ "-" ++ svcExport.name

/-- Modelled from the spec: updateInternalSvcExport (body not among the
sources) — builds the hub projection afresh from the current Service on every
pass: a full-replace port projection (spec section 4.1 step 6). -/
def updateInternalSvcExport (svc : Service) : InternalServiceExport :=
  { spec := { ports := svc.ports } }

/-- A store error surfaced by an injected write failure. -/
inductive StoreErr
  | memberUpdateFailed
  | hubWriteFailed
deriving Repr, DecidableEq

/-- The state a ServiceExport reconciliation pass can read and write: the
member store's ServiceExport and Service at the request's key, and the hub
store (projections of this member, keyed by name inside its reserved hub
namespace). -/
structure SEWorld where
  svcExport : Option ServiceExport
  svc : Option Service
  hub : List (String × InternalServiceExport)
deriving Repr, DecidableEq

/-- The environment of a ServiceExport reconciliation pass: the pluggable
eligibility policy (isSvcEligibleForExport is external), injected write-fault
flags for the two stores, and the clock read by metav1.Now(). -/
structure SEParams where
  eligible : Service → Bool
  memberUpdateOk : Bool
  hubWriteOk : Bool
  now : Nat

/-- A successful store mutation performed by the ServiceExport controller,
in the order issued. -/
inductive SEOp
  | memberUpdate (svcExport : ServiceExport)
  | hubDelete (name : String)
  | hubCreate (name : String) (obj : InternalServiceExport)
  | hubUpdate (name : String) (obj : InternalServiceExport)
deriving Repr, DecidableEq

/-- The outcome of a pass (or of one of its helpers): the resulting state,
the trace of successful store mutations, and the error returned, if any. -/
structure SEOutcome where
  world : SEWorld
  ops : List SEOp
  err : Option StoreErr
deriving Repr, DecidableEq

/-- memberClient.Update on the ServiceExport.  On success the written object
replaces the stored one; per the platform's finalizer semantics an object
that is scheduled for deletion and holds no more finalizers is removed by
the store at that point.  On an injected failure the store is unchanged and
the error is surfaced. -/
def memberUpdateSvcExport (p : SEParams) (w : SEWorld) (svcExport : ServiceExport) : SEOutcome :=
  if p.memberUpdateOk then
    let stored : Option ServiceExport :=
      if svcExport.deletionTimestamp.isSome && svcExport.finalizers.isEmpty then none else some svcExport
    { world := { w with svcExport := stored },
      ops := [SEOp.memberUpdate svcExport], err := none }
  else
    { world := w, ops := [], err := some StoreErr.memberUpdateFailed }

/-- removeSvcExportCleanupFinalizer (controller.go 231-241): drop the cleanup
finalizer, keeping every other finalizer in order, and persist.  The updated
in-memory object is returned alongside, because the Go code mutates the
caller's object in place. -/
def removeSvcExportCleanupFinalizer (p : SEParams) (w : SEWorld) (svcExport : ServiceExport) :
    SEOutcome × ServiceExport :=
  let updatedFinalizers := svcExport.finalizers.filter (fun f => f != svcExportCleanupFinalizer)
  let svcExport' := { svcExport with finalizers := updatedFinalizers }
  (memberUpdateSvcExport p w svcExport', svcExport')

/-- unexportSvc (controller.go 204-228): delete the hub projection at the
deterministic name, then remove the cleanup finalizer.  When the hub store
has no such projection the delete reports NotFound, client.IgnoreNotFound
maps it to a nil error and the function returns at once — without reaching
the finalizer removal. -/
def unexportSvc (p : SEParams) (w : SEWorld) (svcExport : ServiceExport) :
    SEOutcome × ServiceExport :=
  let internalSvcExportName := formatInternalSvcExportName svcExport
  match lookupKV w.hub internalSvcExportName with
  | none =>
    ({ world := w, ops := [], err := none }, svcExport)
  | some _ =>
    let w1 := { w with hub := eraseKV w.hub internalSvcExportName }
    let (o, svcExport') := removeSvcExportCleanupFinalizer p w1 svcExport
    ({ o with ops := SEOp.hubDelete internalSvcExportName :: o.ops }, svcExport')

/-- The condition list written by markSvcExportAsInvalidSvcNotFound
(controller.go 245-258): every condition whose type is not Valid is kept in
order, and a fresh Valid=False condition with reason ServiceNotFound is
appended. -/
def invalidSvcNotFoundConds (now : Nat) (svcExport : ServiceExport) : List Condition :=
  svcExport.conditions.filter (fun c => c.type != serviceExportValid) ++
    [{ type := serviceExportValid, status := conditionFalse, lastTransitionTime := now,
       reason := "ServiceNotFound",
       message := "service " ++ svcExport.ns ++ "/" ++ svcExport.name ++ " is not found" }]

/-- markSvcExportAsInvalidSvcNotFound (controller.go 244-261): write the
updated condition list and persist. -/
def markSvcExportAsInvalidSvcNotFound (p : SEParams) (w : SEWorld) (svcExport : ServiceExport) :
    SEOutcome :=
  memberUpdateSvcExport p w { svcExport with conditions := invalidSvcNotFoundConds p.now svcExport }

/-- The condition list written by markSvcExportAsInvalidSvcIneligible
(controller.go 265-278). -/
def invalidSvcIneligibleConds (now : Nat) (svcExport : ServiceExport) : List Condition :=
  svcExport.conditions.filter (fun c => c.type != serviceExportValid) ++
    [{ type := serviceExportValid, status := conditionFalse, lastTransitionTime := now,
       reason := "ServiceIneligible",
       message := "service " ++ svcExport.ns ++ "/" ++ svcExport.name ++ " is not eligible for export" }]

/-- markSvcExportAsInvalidSvcIneligible (controller.go 264-281). -/
def markSvcExportAsInvalidSvcIneligible (p : SEParams) (w : SEWorld) (svcExport : ServiceExport) :
    SEOutcome :=
  memberUpdateSvcExport p w { svcExport with conditions := invalidSvcIneligibleConds p.now svcExport }

/-- addCleanupFinalizer (controller.go 284-290): append the cleanup finalizer
and persist; the updated in-memory object is returned alongside. -/
def addCleanupFinalizer (p : SEParams) (w : SEWorld) (svcExport : ServiceExport) :
    SEOutcome × ServiceExport :=
  let svcExport' := { svcExport with finalizers := svcExport.finalizers ++ [svcExportCleanupFinalizer] }
  (memberUpdateSvcExport p w svcExport', svcExport')

/-- Whether the Service lookup hit the absent-or-deleted case of Reconcile
(controller.go 62-64): the Get reported NotFound, or the object is marked
deleted. -/
def svcAbsentOrDeleted : Option Service → Bool
  | none => true
  | some svc => isSvcDeleted svc

/-- The branch of Reconcile taken when the Service is absent or deleted
(controller.go 63-72): unexport first if the cleanup finalizer is present
(propagating its error), then mark the ServiceExport invalid with reason
ServiceNotFound. -/
def svcExportOnSvcNotFound (p : SEParams) (w : SEWorld) (svcExport : ServiceExport) : SEOutcome :=
  if hasSvcExportCleanupFinalizer svcExport then
    let (o, svcExport') := unexportSvc p w svcExport
    match o.err with
    | some e => { world := o.world, ops := o.ops, err := some e }
    | none =>
      let o2 := markSvcExportAsInvalidSvcNotFound p o.world svcExport'
      { world := o2.world, ops := o.ops ++ o2.ops, err := o2.err }
  else
    markSvcExportAsInvalidSvcNotFound p w svcExport

/-- The branch of Reconcile taken when the Service exists but is ineligible
(controller.go 79-88). -/
def svcExportOnSvcIneligible (p : SEParams) (w : SEWorld) (svcExport : ServiceExport) : SEOutcome :=
  if hasSvcExportCleanupFinalizer svcExport then
    let (o, svcExport') := unexportSvc p w svcExport
    match o.err with
    | some e => { world := o.world, ops := o.ops, err := some e }
    | none =>
      let o2 := markSvcExportAsInvalidSvcIneligible p o.world svcExport'
      { world := o2.world, ops := o.ops ++ o2.ops, err := o2.err }
  else
    markSvcExportAsInvalidSvcIneligible p w svcExport

/-- The export step of Reconcile (controller.go 98-112): get the hub
projection at the deterministic key, build the projection afresh from the
current Service, and Create it (Get reported NotFound) or Update it
otherwise — full-replace either way. -/
def exportSvc (p : SEParams) (w : SEWorld) (svcExport : ServiceExport) (svc : Service) : SEOutcome :=
  let internalSvcExportKey := formatInternalSvcExportName svcExport
  let internalSvcExport := updateInternalSvcExport svc
  if p.hubWriteOk then
    match lookupKV w.hub internalSvcExportKey with
    | none =>
      { world := { w with hub := putKV w.hub internalSvcExportKey internalSvcExport },
        ops := [SEOp.hubCreate internalSvcExportKey internalSvcExport], err := none }
    | some _ =>
      { world := { w with hub := putKV w.hub internalSvcExportKey internalSvcExport },
        ops := [SEOp.hubUpdate internalSvcExportKey internalSvcExport], err := none }
  else
    { world := w, ops := [], err := some StoreErr.hubWriteFailed }

/-- The eligible branch of Reconcile (controller.go 90-112): add the cleanup
finalizer first if it is absent (returning its error without exporting), then
create-or-update the hub projection. -/
def svcExportOnSvcEligible (p : SEParams) (w : SEWorld) (svcExport : ServiceExport) (svc : Service) :
    SEOutcome :=
  if !hasSvcExportCleanupFinalizer svcExport then
    let (o, svcExport') := addCleanupFinalizer p w svcExport
    match o.err with
    | some e => { world := o.world, ops := o.ops, err := some e }
    | none =>
      let o2 := exportSvc p o.world svcExport' svc
      { world := o2.world, ops := o.ops ++ o2.ops, err := o2.err }
  else
    exportSvc p w svcExport svc

/-- SvcExportReconciler.Reconcile (controller.go 39-113): fetch the
ServiceExport (absence is a no-op success); run unexport when cleanup is
needed; fetch the Service and dispatch on absence/deletion, ineligibility,
or eligibility. -/
def svcExportReconcile (p : SEParams) (w : SEWorld) : SEOutcome :=
  match w.svcExport with
  | none => { world := w, ops := [], err := none }
  | some svcExport =>
    if isSvcExportCleanupNeeded svcExport then
      (unexportSvc p w svcExport).1
    else if svcAbsentOrDeleted w.svc then
      svcExportOnSvcNotFound p w svcExport
    else
      match w.svc with
      | none => { world := w, ops := [], err := none }
      | some svc =>
        if !p.eligible svc then
          svcExportOnSvcIneligible p w svcExport
        else
          svcExportOnSvcEligible p w svcExport svc

/-! The data model of the EndpointSlice controller. -/

/-- The reserved label key holding an EndpointSlice's assigned fleet-wide
unique name (endpointSliceUniqueNameLabel, controller.go 32). -/
def endpointSliceUniqueNameLabel : String := "networking.fleet.azure.com/fleet-unique-name"

/-- discoveryv1.LabelServiceName: the label tying an EndpointSlice to the
Service that owns it (library constant). -/
def labelServiceName : String := "kubernetes.io/service-name"

/-- discoveryv1.Endpoint restricted to what the projection carries. -/
structure Endpoint where
  addresses : List String
deriving Repr, DecidableEq

/-- discoveryv1.EndpointPort: one entry of the copied port list. -/
structure EndpointPort where
  name : String
  protocol : String
  port : Int
  appProtocol : String
deriving Repr, DecidableEq

/-- discoveryv1.EndpointSlice restricted to the fields the controller reads:
identity and provenance metadata, the label map, the deletion timestamp, and
the endpoint/port data. -/
structure EndpointSlice where
  ns : String
  name : String
  labels : List (String × String)
  deletionTimestamp : Option Nat
  endpoints : List Endpoint
  ports : List EndpointPort
  apiVersion : String
  kind : String
  resourceVersion : String
  generation : Int
  uid : String
deriving Repr, DecidableEq

/-- fleetnetv1alpha1.ExportedObjectReference: the provenance reference put on
a dependent hub projection. -/
structure ExportedObjectReference where
  clusterID : String
  apiVersion : String
  kind : String
  ns : String
  name : String
  resourceVersion : String
  generation : Int
  uid : String
deriving Repr, DecidableEq

/-- fleetnetv1alpha1.EndpointSliceExportSpec. -/
structure EndpointSliceExportSpec where
  addressType : String
  endpoints : List Endpoint
  ports : List EndpointPort
  endpointSliceReference : ExportedObjectReference
deriving Repr, DecidableEq

/-- fleetnetv1alpha1.EndpointSliceExport: the hub-side projection of an
exported EndpointSlice, held in the hub store under its fleet-unique name. -/
structure EndpointSliceExport where
  spec : EndpointSliceExportSpec
deriving Repr, DecidableEq

/-- meta.FindStatusCondition (library): the first condition of the given
type, if any. -/
def findStatusCondition (conditions : List Condition) (condType : String) : Option Condition :=
  conditions.find? (fun c => c.type == condType)

/-- The validity check of shouldSkipOrUnexportEndpointSlice (controller.go
253-258): the Valid condition must be present with status True, and the
Conflict condition must be present with status False. -/
def isValidWithNoConflict (svcExport : ServiceExport) : Bool :=
  let validCond := findStatusCondition svcExport.conditions serviceExportValid
  let conflictCond := findStatusCondition svcExport.conditions serviceExportConflict
  let isValid := match validCond with
    | some c => c.status == conditionTrue
    | none => false
  let hasNoConflict := match conflictCond with
    | some c => c.status == conditionFalse
    | none => false
  isValid && hasNoConflict

/-- Modelled from the spec: formatFleetUniqueName (body not among the
sources) — the Unique Name Assigner, a pure function of the member cluster
identifier and the object's namespace/name (spec section 2). -/
def formatFleetUniqueName (memberClusterID : String) (endpointSlice : EndpointSlice) : String :=
  memberClusterID ++ "-" ++ endpointSlice.ns ++ "-" ++ endpointSlice.name

/-- Modelled from the spec: extractEndpointsFromEndpointSlice (body not among
the sources) — the endpoint data copied from the EndpointSlice into the
projection (spec section 4.2 step 5). -/
def extractEndpointsFromEndpointSlice (endpointSlice : EndpointSlice) : List Endpoint :=
  endpointSlice.endpoints.map (fun e => { addresses := e.addresses })

/-- skipOrUnexportEndpointSliceOp (controller.go 35-46), as a tagged variant
with the three named outcomes. -/
inductive SkipOrUnexportOp
  | shouldSkipEndpointSliceOp
  | shouldUnexportEndpointSliceOp
  | noSkipOrUnexportNeededOp
deriving Repr, DecidableEq

/-- shouldSkipOrUnexportEndpointSlice (controller.go 211-282).  The
permanently-unexportable predicate (isEndpointSlicePermanentlyUnexportable is
not among the sources; the spec leaves it an opaque injected policy) and the
member store's ServiceExport lookup (by namespace and name) are passed in.
The store lookup is total, so the unexpected-error arm of the Go switch is
never taken and the decision is the whole result. -/
def shouldSkipOrUnexportEndpointSlice
    (isEndpointSlicePermanentlyUnexportable : EndpointSlice → Bool)
    (getSvcExport : String → String → Option ServiceExport)
    (endpointSlice : EndpointSlice) : SkipOrUnexportOp :=
  if isEndpointSlicePermanentlyUnexportable endpointSlice then
    SkipOrUnexportOp.shouldSkipEndpointSliceOp
  else
    let hasUniqueNameLabel := (lookupKV endpointSlice.labels endpointSliceUniqueNameLabel).isSome
    match lookupKV endpointSlice.labels labelServiceName with
    | none =>
      if !hasUniqueNameLabel then SkipOrUnexportOp.shouldSkipEndpointSliceOp
      else SkipOrUnexportOp.shouldUnexportEndpointSliceOp
    | some svcName =>
      match getSvcExport endpointSlice.ns svcName with
      | none =>
        if hasUniqueNameLabel then SkipOrUnexportOp.shouldUnexportEndpointSliceOp
        else SkipOrUnexportOp.shouldSkipEndpointSliceOp
      | some svcExport =>
        if !isValidWithNoConflict svcExport then
          if hasUniqueNameLabel then SkipOrUnexportOp.shouldUnexportEndpointSliceOp
          else SkipOrUnexportOp.shouldSkipEndpointSliceOp
        else if hasUniqueNameLabel && endpointSlice.deletionTimestamp.isSome then
          SkipOrUnexportOp.shouldUnexportEndpointSliceOp
        else
          SkipOrUnexportOp.noSkipOrUnexportNeededOp

/-- The Skip/Unexport/Continue decision table of spec section 4.2, written
directly as a function of its five inputs: the opaque permanent-ineligibility
verdict, presence of the two labels, the governing intent's lookup/validity
(none when no intent governs the slice), and deletion-timestamp presence. -/
def skipOrUnexportDecisionTable (permanentlyIneligible hasSvcNameLabel hasUniqueNameLabel : Bool)
    (governingIntentValid : Option Bool) (deletionTimestampSet : Bool) : SkipOrUnexportOp :=
  if permanentlyIneligible then SkipOrUnexportOp.shouldSkipEndpointSliceOp
  else if !hasSvcNameLabel then
    if hasUniqueNameLabel then SkipOrUnexportOp.shouldUnexportEndpointSliceOp
    else SkipOrUnexportOp.shouldSkipEndpointSliceOp
  else
    match governingIntentValid with
    | none =>
      if hasUniqueNameLabel then SkipOrUnexportOp.shouldUnexportEndpointSliceOp
      else SkipOrUnexportOp.shouldSkipEndpointSliceOp
    | some valid =>
      if !valid then
        if hasUniqueNameLabel then SkipOrUnexportOp.shouldUnexportEndpointSliceOp
        else SkipOrUnexportOp.shouldSkipEndpointSliceOp
      else if hasUniqueNameLabel && deletionTimestampSet then
        SkipOrUnexportOp.shouldUnexportEndpointSliceOp
      else
        SkipOrUnexportOp.noSkipOrUnexportNeededOp

/-- The governing-intent validity input of the decision table, as the
controller derives it: none when the slice carries no service-name label or
no ServiceExport of that name exists; otherwise the intent's validity
verdict. -/
def governingIntentValidity (getSvcExport : String → String → Option ServiceExport)
    (endpointSlice : EndpointSlice) : Option Bool :=
  match lookupKV endpointSlice.labels labelServiceName with
  | none => none
  | some svcName => (getSvcExport endpointSlice.ns svcName).map isValidWithNoConflict

/-- The state an EndpointSlice reconciliation pass can read and write: the
member store's EndpointSlice at the request's key, the member store's
ServiceExport lookup, and the hub store of dependent projections keyed by
fleet-unique name inside the member's reserved hub namespace. -/
structure ESWorld where
  endpointSlice : Option EndpointSlice
  getSvcExport : String → String → Option ServiceExport
  hub : List (String × EndpointSliceExport)

/-- The environment of an EndpointSlice reconciliation pass. -/
structure ESParams where
  memberClusterID : String
  isEndpointSlicePermanentlyUnexportable : EndpointSlice → Bool
  memberUpdateOk : Bool
  hubWriteOk : Bool

/-- A successful store mutation performed by the EndpointSlice controller,
in the order issued. -/
inductive ESOp
  | memberUpdate (endpointSlice : EndpointSlice)
  | hubDelete (name : String)
  | hubCreate (name : String) (obj : EndpointSliceExport)
  | hubUpdate (name : String) (obj : EndpointSliceExport)
deriving Repr, DecidableEq

/-- The outcome of an EndpointSlice pass. -/
structure ESOutcome where
  world : ESWorld
  ops : List ESOp
  err : Option StoreErr

/-- unexportEndpointSlice (controller.go 285-307): delete the hub projection
at the name held in the unique-name label (absence is tolerated and the flow
continues), then remove the unique-name label from a copy of the slice and
persist it. -/
def unexportEndpointSlice (p : ESParams) (w : ESWorld) (endpointSlice : EndpointSlice) : ESOutcome :=
  let fleetUniqueName := (lookupKV endpointSlice.labels endpointSliceUniqueNameLabel).getD ""
  let (w1, ops1) :=
    match lookupKV w.hub fleetUniqueName with
    | none => (w, ([] : List ESOp))
    | some _ => ({ w with hub := eraseKV w.hub fleetUniqueName }, [ESOp.hubDelete fleetUniqueName])
  let endpointSliceCopy :=
    { endpointSlice with labels := eraseKV endpointSlice.labels endpointSliceUniqueNameLabel }
  if p.memberUpdateOk then
    { world := { w1 with endpointSlice := some endpointSliceCopy },
      ops := ops1 ++ [ESOp.memberUpdate endpointSliceCopy], err := none }
  else
    { world := w1, ops := ops1, err := some StoreErr.memberUpdateFailed }

/-- assignUniqueNameAsLabel (controller.go 310-320): compute the fleet-unique
name, set it as a label on a copy of the slice, persist the copy, and return
the name alongside (the caller keeps using its original object). -/
def assignUniqueNameAsLabel (p : ESParams) (w : ESWorld) (endpointSlice : EndpointSlice) :
    ESOutcome × String :=
  let fleetUniqueName := formatFleetUniqueName p.memberClusterID endpointSlice
  let updatedEndpointSlice :=
    { endpointSlice with labels := putKV endpointSlice.labels endpointSliceUniqueNameLabel fleetUniqueName }
  if p.memberUpdateOk then
    ({ world := { w with endpointSlice := some updatedEndpointSlice },
       ops := [ESOp.memberUpdate updatedEndpointSlice], err := none }, fleetUniqueName)
  else
    ({ world := w, ops := [], err := some StoreErr.memberUpdateFailed }, fleetUniqueName)

/-- The projection content the controller builds for an EndpointSlice
(controller.go 123-148): fixed IPv4 address-family tag, the extracted
endpoint list, the copied port list, and the provenance reference. -/
def buildEndpointSliceExport (memberClusterID : String) (endpointSlice : EndpointSlice) :
    EndpointSliceExport :=
  { spec := { addressType := "IPv4",
              endpoints := extractEndpointsFromEndpointSlice endpointSlice,
              ports := endpointSlice.ports,
              endpointSliceReference :=
                { clusterID := memberClusterID,
                  apiVersion := endpointSlice.apiVersion,
                  kind := endpointSlice.kind,
                  ns := endpointSlice.ns,
                  name := endpointSlice.name,
                  resourceVersion := endpointSlice.resourceVersion,
                  generation := endpointSlice.generation,
                  uid := endpointSlice.uid } } }

/-- Reconciler.Reconcile of the EndpointSlice controller (controller.go
61-158): fetch the slice (absence is a no-op success); apply the three-way
decision; on Unexport run the teardown; on Continue take the unique name from
the label or assign one (returning its error before any hub write), then
create-or-update the hub projection with the freshly built content. -/
def endpointSliceReconcile (p : ESParams) (w : ESWorld) : ESOutcome :=
  match w.endpointSlice with
  | none => { world := w, ops := [], err := none }
  | some endpointSlice =>
    match shouldSkipOrUnexportEndpointSlice p.isEndpointSlicePermanentlyUnexportable
        w.getSvcExport endpointSlice with
    | SkipOrUnexportOp.shouldSkipEndpointSliceOp => { world := w, ops := [], err := none }
    | SkipOrUnexportOp.shouldUnexportEndpointSliceOp => unexportEndpointSlice p w endpointSlice
    | SkipOrUnexportOp.noSkipOrUnexportNeededOp =>
      let (o1, fleetUniqueName) :=
        match lookupKV endpointSlice.labels endpointSliceUniqueNameLabel with
        | some n => (({ world := w, ops := [], err := none } : ESOutcome), n)
        | none => assignUniqueNameAsLabel p w endpointSlice
      match o1.err with
      | some e => { world := o1.world, ops := o1.ops, err := some e }
      | none =>
        let endpointSliceExport := buildEndpointSliceExport p.memberClusterID endpointSlice
        if p.hubWriteOk then
          match lookupKV o1.world.hub fleetUniqueName with
          | none =>
            { world := { o1.world with hub := putKV o1.world.hub fleetUniqueName endpointSliceExport },
              ops := o1.ops ++ [ESOp.hubCreate fleetUniqueName endpointSliceExport], err := none }
          | some _ =>
            { world := { o1.world with hub := putKV o1.world.hub fleetUniqueName endpointSliceExport },
              ops := o1.ops ++ [ESOp.hubUpdate fleetUniqueName endpointSliceExport], err := none }
        else
          { world := o1.world, ops := o1.ops, err := some StoreErr.hubWriteFailed }

/-! Helper lemmas shared by the claim-level theorems. -/

theorem stringAppend_left_cancel (a b c : String) (h : a ++ b = a ++ c) : b = c := by
  have hd : (a ++ b).data = (a ++ c).data := by rw [h]
  simp [String.data_append] at hd
  exact String.ext hd

theorem stringAppend_right_cancel (a b c : String) (h : a ++ c = b ++ c) : a = b := by
  have hd : (a ++ c).data = (b ++ c).data := by rw [h]
  simp [String.data_append] at hd
  exact String.ext hd

theorem filter_eq_after_filter_ne (l : List Condition) (t : String) :
    (l.filter (fun c => c.type != t)).filter (fun c => c.type == t) = [] := by
  induction l with
  | nil => rfl
  | cons c rest ih => by_cases h : c.type = t <;> simp [h, ih]

theorem filter_ne_idem (l : List Condition) (t : String) :
    (l.filter (fun c => c.type != t)).filter (fun c => c.type != t) =
      l.filter (fun c => c.type != t) := by
  induction l with
  | nil => rfl
  | cons c rest ih => by_cases h : c.type = t <;> simp [h, ih]

/-- ServiceExport-pass parameters with eligibility always granted, all writes
succeeding, and the clock at 7; used by the concrete runs below. -/
def okSEParams : SEParams :=
  { eligible := fun _ => true, memberUpdateOk := true, hubWriteOk := true, now := 7 }

/-! Claim C1. -/

/-- The ServiceExport of the C1 run: cleanup finalizer present and deletion
scheduled, so the unexport path runs. -/
def c1SvcExport : ServiceExport :=
  { ns := "work", name := "app", finalizers := [svcExportCleanupFinalizer],
    deletionTimestamp := some 1, conditions := [] }

/-- The C1 world: the hub store has no projection for the intent, so the
hub-side delete reports NotFound. -/
def c1World : SEWorld := { svcExport := some c1SvcExport, svc := none, hub := [] }

/-- C1: evidence of the divergence — on a pass whose unexport path runs
(cleanup finalizer present, deletion scheduled) and whose hub-side delete
reports NotFound, the code returns success having performed no store
mutation at all: the cleanup finalizer is NOT removed from the ServiceExport,
contrary to the claim (and to the spec's unexport contract), leaving the
deletion-scheduled intent stuck with its finalizer. -/
theorem C1_notfound_skips_finalizer_removal :
    (svcExportReconcile okSEParams c1World).err = none ∧
    (svcExportReconcile okSEParams c1World).ops = [] ∧
    (svcExportReconcile okSEParams c1World).world.svcExport = some c1SvcExport ∧
    hasSvcExportCleanupFinalizer c1SvcExport = true ∧
    isSvcExportCleanupNeeded c1SvcExport = true := by
  decide

/-! Claim C4. -/

/-- First identity of the C4 collision: namespace a-b, name c. -/
def c4SvcExportA : ServiceExport :=
  { ns := "a-b", name := "c", finalizers := [], deletionTimestamp := none, conditions := [] }

/-- Second identity of the C4 collision: namespace a, name b-c. -/
def c4SvcExportB : ServiceExport :=
  { ns := "a", name := "b-c", finalizers := [], deletionTimestamp := none, conditions := [] }

/-- C4: counterexample — the name assigner joins namespace and name with a
hyphen, so the distinct identities a-b/c and a/b-c are both assigned the
fleet-wide name a-b-c: the assigner is not collision-resistant over all
distinct namespace/name pairs. -/
theorem C4_counterexample_hyphen_collision :
    formatInternalSvcExportName c4SvcExportA = formatInternalSvcExportName c4SvcExportB ∧
    (c4SvcExportA.ns, c4SvcExportA.name) ≠ (c4SvcExportB.ns, c4SvcExportB.name) := by
  decide

/-- C4 (amended): the assigner is a pure, deterministic, idempotent function
of the namespace/name identity, and it is injective on identities that share
a namespace and on identities that share a name; full collision-resistance
fails only when the hyphen-joined namespace and name coincide (as in the
counterexample a-b/c versus a/b-c). -/
theorem C4_amended_deterministic_and_partially_injective :
    (∀ se1 se2 : ServiceExport, se1.ns = se2.ns → se1.name = se2.name →
      formatInternalSvcExportName se1 = formatInternalSvcExportName se2) ∧
    (∀ se1 se2 : ServiceExport, se1.ns = se2.ns → se1.name ≠ se2.name →
      formatInternalSvcExportName se1 ≠ formatInternalSvcExportName se2) ∧
    (∀ se1 se2 : ServiceExport, se1.name = se2.name → se1.ns ≠ se2.ns →
      formatInternalSvcExportName se1 ≠ formatInternalSvcExportName se2) := by
  refine ⟨?_, ?_, ?_⟩
  · intro se1 se2 hns hname
    unfold formatInternalSvcExportName
    rw [hns, hname]
  · intro se1 se2 hns hname h
    unfold formatInternalSvcExportName at h
    rw [hns] at h
    exact hname (stringAppend_left_cancel _ _ _ h)
  · intro se1 se2 hname hns h
    unfold formatInternalSvcExportName at h
    rw [hname] at h
    exact hns (stringAppend_right_cancel _ _ _ (stringAppend_right_cancel _ _ _ h))

/-- Witness for the amended C4 theorem at concrete identities. -/
theorem C4_amended_witness :
    formatInternalSvcExportName c4SvcExportA ≠
      formatInternalSvcExportName { c4SvcExportA with name := "d" } :=
  C4_amended_deterministic_and_partially_injective.2.1 c4SvcExportA
    { c4SvcExportA with name := "d" } rfl (by decide)

/-! Claim C7. -/

/-- C7: after either condition-setting path of the Export Reconciler, the
written condition list holds exactly one condition of type Valid — the newly
built one — while the conditions of every other type are exactly those of the
input, unchanged and in order: setting a new reason replaces the prior Valid
condition rather than appending a second one. -/
theorem C7_valid_condition_replaced_not_appended (svcExport : ServiceExport) (now : Nat) :
    ((invalidSvcNotFoundConds now svcExport).filter (fun c => c.type == serviceExportValid) =
      [{ type := serviceExportValid, status := conditionFalse, lastTransitionTime := now,
         reason := "ServiceNotFound",
         message := "service " ++ svcExport.ns ++ "/" ++ svcExport.name ++ " is not found" }]) ∧
    ((invalidSvcNotFoundConds now svcExport).filter (fun c => c.type != serviceExportValid) =
      svcExport.conditions.filter (fun c => c.type != serviceExportValid)) ∧
    ((invalidSvcIneligibleConds now svcExport).filter (fun c => c.type == serviceExportValid) =
      [{ type := serviceExportValid, status := conditionFalse, lastTransitionTime := now,
         reason := "ServiceIneligible",
         message := "service " ++ svcExport.ns ++ "/" ++ svcExport.name ++
           " is not eligible for export" }]) ∧
    ((invalidSvcIneligibleConds now svcExport).filter (fun c => c.type != serviceExportValid) =
      svcExport.conditions.filter (fun c => c.type != serviceExportValid)) := by
  unfold invalidSvcNotFoundConds invalidSvcIneligibleConds
  refine ⟨?_, ?_, ?_, ?_⟩ <;>
    simp [List.filter_append, filter_eq_after_filter_ne, filter_ne_idem]

/-! Claim C2. -/

/-- The governing intent of the C2 run: its Valid condition is True and its
condition set holds no Conflict condition at all. -/
def c2SvcExport : ServiceExport :=
  { ns := "work", name := "app", finalizers := [], deletionTimestamp := none,
    conditions := [{ type := serviceExportValid, status := conditionTrue,
                     lastTransitionTime := 3, reason := "ServiceIsValid", message := "" }] }

/-- The EndpointSlice of the C2 run: service-name label present, no
unique-name label, not marked for deletion. -/
def c2EndpointSlice : EndpointSlice :=
  { ns := "work", name := "app-es-1", labels := [(labelServiceName, "app")],
    deletionTimestamp := none, endpoints := [], ports := [],
    apiVersion := "discovery.k8s.io/v1", kind := "EndpointSlice",
    resourceVersion := "1", generation := 1, uid := "uid-1" }

/-- C2: counterexample — an Export Intent whose Valid condition is True but
whose condition set contains no Conflict condition is NOT treated as valid:
the EndpointSlice (service-name label present, not marked for deletion, not
permanently ineligible) gets the Skip outcome, not Continue. -/
theorem C2_counterexample_missing_conflict_condition :
    findStatusCondition c2SvcExport.conditions serviceExportValid =
      some { type := serviceExportValid, status := conditionTrue,
             lastTransitionTime := 3, reason := "ServiceIsValid", message := "" } ∧
    findStatusCondition c2SvcExport.conditions serviceExportConflict = none ∧
    shouldSkipOrUnexportEndpointSlice (fun _ => false) (fun _ _ => some c2SvcExport)
      c2EndpointSlice = SkipOrUnexportOp.shouldSkipEndpointSliceOp ∧
    SkipOrUnexportOp.shouldSkipEndpointSliceOp ≠ SkipOrUnexportOp.noSkipOrUnexportNeededOp := by
  decide

/-- C2 (amended): the decision counts a governing intent as valid exactly
when its Valid condition is True AND a Conflict condition is present with
status False; an intent whose condition set holds no Conflict condition is
treated as not valid, so the slice is Skipped (no unique-name label) or
Unexported (unique-name label present) rather than Continued. -/
theorem C2_amended_conflict_condition_must_be_present
    (perm : EndpointSlice → Bool) (getSE : String → String → Option ServiceExport)
    (es : EndpointSlice) (svcName : String) (se : ServiceExport)
    (hperm : perm es = false)
    (hsvc : lookupKV es.labels labelServiceName = some svcName)
    (hget : getSE es.ns svcName = some se)
    (hconflict : findStatusCondition se.conditions serviceExportConflict = none) :
    isValidWithNoConflict se = false ∧
    shouldSkipOrUnexportEndpointSlice perm getSE es =
      (if (lookupKV es.labels endpointSliceUniqueNameLabel).isSome then
        SkipOrUnexportOp.shouldUnexportEndpointSliceOp
      else SkipOrUnexportOp.shouldSkipEndpointSliceOp) := by
  have hv : isValidWithNoConflict se = false := by
    unfold isValidWithNoConflict
    rw [hconflict]
    simp
  refine ⟨hv, ?_⟩
  unfold shouldSkipOrUnexportEndpointSlice
  cases hu : (lookupKV es.labels endpointSliceUniqueNameLabel).isSome <;>
    simp [hperm, hsvc, hget, hv, hu]

/-- Witness for the amended C2 theorem at the concrete C2 instance. -/
theorem C2_amended_witness :
    isValidWithNoConflict c2SvcExport = false ∧
    shouldSkipOrUnexportEndpointSlice (fun _ => false) (fun _ _ => some c2SvcExport)
      c2EndpointSlice =
      (if (lookupKV c2EndpointSlice.labels endpointSliceUniqueNameLabel).isSome then
        SkipOrUnexportOp.shouldUnexportEndpointSliceOp
      else SkipOrUnexportOp.shouldSkipEndpointSliceOp) :=
  C2_amended_conflict_condition_must_be_present (fun _ => false) (fun _ _ => some c2SvcExport)
    c2EndpointSlice "app" c2SvcExport rfl (by decide) rfl (by decide)

/-! Claim C5. -/

/-- C5: the Skip/Unexport/Continue decision factors through exactly the five
inputs of the spec's decision table — permanent ineligibility, presence of
the two labels, the governing intent's lookup/validity, deletion-timestamp
presence — and the table function agrees with every row of spec section 4.2
(permanent ineligibility first, then label presence, then intent
lookup/validity, then the deletion timestamp). -/
theorem C5_decision_is_total_function_of_five_inputs
    (perm : EndpointSlice → Bool) (getSE : String → String → Option ServiceExport)
    (es : EndpointSlice) :
    (shouldSkipOrUnexportEndpointSlice perm getSE es =
      skipOrUnexportDecisionTable (perm es)
        (lookupKV es.labels labelServiceName).isSome
        (lookupKV es.labels endpointSliceUniqueNameLabel).isSome
        (governingIntentValidity getSE es)
        es.deletionTimestamp.isSome) ∧
    (∀ (s u : Bool) (v : Option Bool) (d : Bool),
      skipOrUnexportDecisionTable true s u v d = SkipOrUnexportOp.shouldSkipEndpointSliceOp) ∧
    (∀ (v : Option Bool) (d : Bool),
      skipOrUnexportDecisionTable false false false v d =
        SkipOrUnexportOp.shouldSkipEndpointSliceOp) ∧
    (∀ (v : Option Bool) (d : Bool),
      skipOrUnexportDecisionTable false false true v d =
        SkipOrUnexportOp.shouldUnexportEndpointSliceOp) ∧
    (∀ (d : Bool), skipOrUnexportDecisionTable false true false none d =
      SkipOrUnexportOp.shouldSkipEndpointSliceOp) ∧
    (∀ (d : Bool), skipOrUnexportDecisionTable false true true none d =
      SkipOrUnexportOp.shouldUnexportEndpointSliceOp) ∧
    (∀ (d : Bool), skipOrUnexportDecisionTable false true false (some false) d =
      SkipOrUnexportOp.shouldSkipEndpointSliceOp) ∧
    (∀ (d : Bool), skipOrUnexportDecisionTable false true true (some false) d =
      SkipOrUnexportOp.shouldUnexportEndpointSliceOp) ∧
    (skipOrUnexportDecisionTable false true true (some true) true =
      SkipOrUnexportOp.shouldUnexportEndpointSliceOp) ∧
    (∀ (u : Bool), skipOrUnexportDecisionTable false true u (some true) false =
      SkipOrUnexportOp.noSkipOrUnexportNeededOp) := by
  refine ⟨?_, by decide, by decide, by decide, by decide, by decide, by decide, by decide,
    by decide, by decide⟩
  unfold shouldSkipOrUnexportEndpointSlice skipOrUnexportDecisionTable governingIntentValidity
  cases hperm : perm es with
  | true => simp
  | false =>
    simp only [Bool.false_eq_true, if_false]
    cases hsvc : lookupKV es.labels labelServiceName with
    | none =>
      cases hu : (lookupKV es.labels endpointSliceUniqueNameLabel).isSome <;> simp [hu]
    | some svcName =>
      cases hget : getSE es.ns svcName with
      | none =>
        cases hu : (lookupKV es.labels endpointSliceUniqueNameLabel).isSome <;> simp [hu, hget]
      | some se =>
        cases hval : isValidWithNoConflict se <;>
          cases hu : (lookupKV es.labels endpointSliceUniqueNameLabel).isSome <;>
            simp [hu, hget, hval]

/-! Claim C10. -/

/-- C10: an EndpointSlice with the service-name label, no unique-name label,
a valid-with-no-conflict governing intent, and a deletion timestamp already
set still gets the Continue outcome (the deletion check fires only when the
unique-name label is present), and a full pass then assigns a unique name and
writes the hub projection under it. -/
theorem C10_deleted_never_exported_slice_still_continues
    (p : ESParams) (w : ESWorld) (es : EndpointSlice) (svcName : String) (se : ServiceExport)
    (hes : w.endpointSlice = some es)
    (hperm : p.isEndpointSlicePermanentlyUnexportable es = false)
    (hsvc : lookupKV es.labels labelServiceName = some svcName)
    (hget : w.getSvcExport es.ns svcName = some se)
    (hvalid : isValidWithNoConflict se = true)
    (hnolabel : lookupKV es.labels endpointSliceUniqueNameLabel = none)
    (hdel : es.deletionTimestamp.isSome = true)
    (hupd : p.memberUpdateOk = true)
    (hhub : p.hubWriteOk = true) :
    shouldSkipOrUnexportEndpointSlice p.isEndpointSlicePermanentlyUnexportable
      w.getSvcExport es = SkipOrUnexportOp.noSkipOrUnexportNeededOp ∧
    (endpointSliceReconcile p w).err = none ∧
    lookupKV (endpointSliceReconcile p w).world.hub
        (formatFleetUniqueName p.memberClusterID es) =
      some (buildEndpointSliceExport p.memberClusterID es) := by
  have hop : shouldSkipOrUnexportEndpointSlice p.isEndpointSlicePermanentlyUnexportable
      w.getSvcExport es = SkipOrUnexportOp.noSkipOrUnexportNeededOp := by
    unfold shouldSkipOrUnexportEndpointSlice
    simp [hperm, hsvc, hget, hvalid, hnolabel]
  refine ⟨hop, ?_⟩
  unfold endpointSliceReconcile assignUniqueNameAsLabel
  rw [hes]
  cases hl : lookupKV w.hub (formatFleetUniqueName p.memberClusterID es) <;>
    simp [hop, hnolabel, hupd, hhub, hl, lookupKV_putKV_self]

/-! Claim C8. -/

/-- Whether an EndpointSlice-controller store mutation is a hub-side write of
the dependent projection. -/
def ESOp.isHubWrite : ESOp → Bool
  | ESOp.hubCreate _ _ => true
  | ESOp.hubUpdate _ _ => true
  | _ => false

/-- The EndpointSlice as persisted by assignUniqueNameAsLabel: the input
slice with the fleet-unique name bound under the unique-name label. -/
def esWithUniqueName (p : ESParams) (es : EndpointSlice) : EndpointSlice :=
  { es with
    labels := putKV es.labels endpointSliceUniqueNameLabel (formatFleetUniqueName p.memberClusterID es) }

/-- C8: on a pass that reaches Continue with no unique-name label present,
the reconciler persists the assigned unique-name label to the member store
first: if that update fails, the pass returns its error having performed no
store mutation at all (in particular no hub write); if it succeeds, the
successful-mutation trace starts with that member update — whose object
carries the new label — and everything after it is hub-side writes. -/
theorem C8_unique_name_persisted_before_hub_write
    (p : ESParams) (w : ESWorld) (es : EndpointSlice)
    (hes : w.endpointSlice = some es)
    (hop : shouldSkipOrUnexportEndpointSlice p.isEndpointSlicePermanentlyUnexportable
      w.getSvcExport es = SkipOrUnexportOp.noSkipOrUnexportNeededOp)
    (hnolabel : lookupKV es.labels endpointSliceUniqueNameLabel = none) :
    (p.memberUpdateOk = false →
      (endpointSliceReconcile p w).err = some StoreErr.memberUpdateFailed ∧
      (endpointSliceReconcile p w).ops = []) ∧
    (p.memberUpdateOk = true →
      ∃ rest, (endpointSliceReconcile p w).ops =
        ESOp.memberUpdate (esWithUniqueName p es) :: rest ∧
        rest.all (fun op => op.isHubWrite) = true ∧
        lookupKV (esWithUniqueName p es).labels endpointSliceUniqueNameLabel =
          some (formatFleetUniqueName p.memberClusterID es)) := by
  constructor
  · intro hfail
    unfold endpointSliceReconcile assignUniqueNameAsLabel
    rw [hes]
    simp [hop, hnolabel, hfail]
  · intro hupd
    unfold endpointSliceReconcile assignUniqueNameAsLabel
    rw [hes]
    cases hhub : p.hubWriteOk with
    | false =>
      refine ⟨[], ?_, by simp, by simp [esWithUniqueName, lookupKV_putKV_self]⟩
      simp [hop, hnolabel, hupd, hhub, esWithUniqueName]
    | true =>
      cases hl : lookupKV w.hub (formatFleetUniqueName p.memberClusterID es) with
      | none =>
        refine ⟨[ESOp.hubCreate (formatFleetUniqueName p.memberClusterID es)
          (buildEndpointSliceExport p.memberClusterID es)], ?_,
          by simp [ESOp.isHubWrite], by simp [esWithUniqueName, lookupKV_putKV_self]⟩
        simp [hop, hnolabel, hupd, hhub, hl, esWithUniqueName]
      | some old =>
        refine ⟨[ESOp.hubUpdate (formatFleetUniqueName p.memberClusterID es)
          (buildEndpointSliceExport p.memberClusterID es)], ?_,
          by simp [ESOp.isHubWrite], by simp [esWithUniqueName, lookupKV_putKV_self]⟩
        simp [hop, hnolabel, hupd, hhub, hl, esWithUniqueName]

/-- A governing intent that is valid with no conflict: Valid condition True
and Conflict condition present with status False. -/
def c10SvcExport : ServiceExport :=
  { ns := "work", name := "app", finalizers := [svcExportCleanupFinalizer],
    deletionTimestamp := none,
    conditions := [{ type := serviceExportValid, status := conditionTrue,
                     lastTransitionTime := 2, reason := "ServiceIsValid", message := "" },
                   { type := serviceExportConflict, status := conditionFalse,
                     lastTransitionTime := 2, reason := "NoConflictDetected", message := "" }] }

/-- An EndpointSlice with the service-name label, no unique-name label, and a
deletion timestamp already set. -/
def c10EndpointSlice : EndpointSlice :=
  { ns := "work", name := "app-es-1", labels := [(labelServiceName, "app")],
    deletionTimestamp := some 9,
    endpoints := [{ addresses := ["10.0.0.1"] }],
    ports := [{ name := "http", protocol := "TCP", port := 80, appProtocol := "" }],
    apiVersion := "discovery.k8s.io/v1", kind := "EndpointSlice",
    resourceVersion := "5", generation := 2, uid := "uid-10" }

/-- EndpointSlice-pass parameters with the opaque permanent-ineligibility
policy never firing and all writes succeeding. -/
def c10Params : ESParams :=
  { memberClusterID := "member-1",
    isEndpointSlicePermanentlyUnexportable := fun _ => false,
    memberUpdateOk := true, hubWriteOk := true }

/-- The concrete EndpointSlice world of the C10 and C8 witnesses. -/
def c10World : ESWorld :=
  { endpointSlice := some c10EndpointSlice,
    getSvcExport := fun _ _ => some c10SvcExport, hub := [] }

/-- Witness for C10 at the concrete instance. -/
theorem C10_witness :
    shouldSkipOrUnexportEndpointSlice c10Params.isEndpointSlicePermanentlyUnexportable
      c10World.getSvcExport c10EndpointSlice = SkipOrUnexportOp.noSkipOrUnexportNeededOp ∧
    (endpointSliceReconcile c10Params c10World).err = none ∧
    lookupKV (endpointSliceReconcile c10Params c10World).world.hub
        (formatFleetUniqueName c10Params.memberClusterID c10EndpointSlice) =
      some (buildEndpointSliceExport c10Params.memberClusterID c10EndpointSlice) :=
  C10_deleted_never_exported_slice_still_continues c10Params c10World c10EndpointSlice
    "app" c10SvcExport rfl rfl (by decide) rfl (by decide) (by decide) (by decide) rfl rfl

/-- Witness for C8 at the concrete instance. -/
theorem C8_witness :
    (c10Params.memberUpdateOk = false →
      (endpointSliceReconcile c10Params c10World).err = some StoreErr.memberUpdateFailed ∧
      (endpointSliceReconcile c10Params c10World).ops = []) ∧
    (c10Params.memberUpdateOk = true →
      ∃ rest, (endpointSliceReconcile c10Params c10World).ops =
        ESOp.memberUpdate (esWithUniqueName c10Params c10EndpointSlice) :: rest ∧
        rest.all (fun op => op.isHubWrite) = true ∧
        lookupKV (esWithUniqueName c10Params c10EndpointSlice).labels
          endpointSliceUniqueNameLabel =
          some (formatFleetUniqueName c10Params.memberClusterID c10EndpointSlice)) :=
  C8_unique_name_persisted_before_hub_write c10Params c10World c10EndpointSlice
    rfl (by decide) (by decide)

/-! Claim C6. -/

/-- Whether a ServiceExport-controller store mutation is a hub-side write of
the export projection. -/
def SEOp.isHubWrite : SEOp → Bool
  | SEOp.hubCreate _ _ => true
  | SEOp.hubUpdate _ _ => true
  | _ => false

/-- Walks a ServiceExport trace tracking the cleanup-marker state of the last
persisted ServiceExport (starting from the given initial state) and demands
that every hub-side create/update occur while the persisted marker is
present. -/
def seTraceMarkerBefore : Bool → List SEOp → Bool
  | _, [] => true
  | _, SEOp.memberUpdate se :: rest => seTraceMarkerBefore (hasSvcExportCleanupFinalizer se) rest
  | marker, SEOp.hubCreate _ _ :: rest => marker && seTraceMarkerBefore marker rest
  | marker, SEOp.hubUpdate _ _ :: rest => marker && seTraceMarkerBefore marker rest
  | marker, SEOp.hubDelete _ :: rest => seTraceMarkerBefore marker rest

theorem seTraceMarkerBefore_of_no_hub_writes (tr : List SEOp)
    (h : tr.all (fun op => !op.isHubWrite) = true) :
    ∀ b, seTraceMarkerBefore b tr = true := by
  induction tr with
  | nil => intro b; rfl
  | cons op rest ih =>
    intro b
    rw [List.all_cons, Bool.and_eq_true] at h
    cases op with
    | memberUpdate se => exact ih h.2 _
    | hubDelete n => exact ih h.2 _
    | hubCreate n o => simp [SEOp.isHubWrite] at h
    | hubUpdate n o => simp [SEOp.isHubWrite] at h

theorem memberUpdateSvcExport_no_hub_writes (p : SEParams) (w : SEWorld) (se : ServiceExport) :
    (memberUpdateSvcExport p w se).ops.all (fun op => !op.isHubWrite) = true := by
  unfold memberUpdateSvcExport
  by_cases h : p.memberUpdateOk = true
  · simp [h, SEOp.isHubWrite]
  · simp only [Bool.not_eq_true] at h
    simp [h]

theorem unexportSvc_no_hub_writes (p : SEParams) (w : SEWorld) (se : ServiceExport) :
    (unexportSvc p w se).1.ops.all (fun op => !op.isHubWrite) = true := by
  unfold unexportSvc removeSvcExportCleanupFinalizer
  cases hl : lookupKV w.hub (formatInternalSvcExportName se)
  · simp [hl]
  · simp only [hl, List.all_cons, Bool.and_eq_true]
    exact ⟨rfl, memberUpdateSvcExport_no_hub_writes _ _ _⟩

theorem markSvcExportAsInvalidSvcNotFound_no_hub_writes
    (p : SEParams) (w : SEWorld) (se : ServiceExport) :
    (markSvcExportAsInvalidSvcNotFound p w se).ops.all (fun op => !op.isHubWrite) = true := by
  unfold markSvcExportAsInvalidSvcNotFound
  exact memberUpdateSvcExport_no_hub_writes _ _ _

theorem markSvcExportAsInvalidSvcIneligible_no_hub_writes
    (p : SEParams) (w : SEWorld) (se : ServiceExport) :
    (markSvcExportAsInvalidSvcIneligible p w se).ops.all (fun op => !op.isHubWrite) = true := by
  unfold markSvcExportAsInvalidSvcIneligible
  exact memberUpdateSvcExport_no_hub_writes _ _ _

theorem svcExportOnSvcNotFound_no_hub_writes (p : SEParams) (w : SEWorld) (se : ServiceExport) :
    (svcExportOnSvcNotFound p w se).ops.all (fun op => !op.isHubWrite) = true := by
  unfold svcExportOnSvcNotFound
  by_cases hfin : hasSvcExportCleanupFinalizer se = true
  · simp only [hfin, if_true]
    rcases hu : unexportSvc p w se with ⟨o, se2⟩
    have h1 := unexportSvc_no_hub_writes p w se
    rw [hu] at h1
    simp only [hu]
    cases herr : o.err with
    | some e => simpa using h1
    | none =>
      simp only [herr]
      simp only at h1
      simp [List.all_append, h1, markSvcExportAsInvalidSvcNotFound_no_hub_writes]
  · simp only [Bool.not_eq_true] at hfin
    simp only [hfin, Bool.false_eq_true, if_false]
    exact markSvcExportAsInvalidSvcNotFound_no_hub_writes _ _ _

theorem svcExportOnSvcIneligible_no_hub_writes (p : SEParams) (w : SEWorld) (se : ServiceExport) :
    (svcExportOnSvcIneligible p w se).ops.all (fun op => !op.isHubWrite) = true := by
  unfold svcExportOnSvcIneligible
  by_cases hfin : hasSvcExportCleanupFinalizer se = true
  · simp only [hfin, if_true]
    rcases hu : unexportSvc p w se with ⟨o, se2⟩
    have h1 := unexportSvc_no_hub_writes p w se
    rw [hu] at h1
    simp only [hu]
    cases herr : o.err with
    | some e => simpa using h1
    | none =>
      simp only [herr]
      simp only at h1
      simp [List.all_append, h1, markSvcExportAsInvalidSvcIneligible_no_hub_writes]
  · simp only [Bool.not_eq_true] at hfin
    simp only [hfin, Bool.false_eq_true, if_false]
    exact markSvcExportAsInvalidSvcIneligible_no_hub_writes _ _ _

/-- The ServiceExport written by addCleanupFinalizer carries the cleanup
finalizer. -/
theorem hasFin_after_append (se : ServiceExport) :
    hasSvcExportCleanupFinalizer
      { se with finalizers := se.finalizers ++ [svcExportCleanupFinalizer] } = true := by
  simp [hasSvcExportCleanupFinalizer]

/-- The deterministic hub name depends only on the identity fields. -/
theorem formatInternalSvcExportName_set_finalizers (se : ServiceExport) (f : List String) :
    formatInternalSvcExportName { se with finalizers := f } =
      formatInternalSvcExportName se := rfl

theorem seTraceMarkerBefore_eligible (p : SEParams) (w : SEWorld) (se : ServiceExport)
    (svc : Service) :
    seTraceMarkerBefore (hasSvcExportCleanupFinalizer se)
      (svcExportOnSvcEligible p w se svc).ops = true := by
  unfold svcExportOnSvcEligible
  by_cases hfin : hasSvcExportCleanupFinalizer se = true
  · simp only [hfin, Bool.not_true, Bool.false_eq_true, if_false]
    unfold exportSvc
    by_cases hw : p.hubWriteOk = true
    · simp only [hw, if_true]
      cases hl : lookupKV w.hub (formatInternalSvcExportName se) <;>
        simp [hl, seTraceMarkerBefore, hfin]
    · simp only [Bool.not_eq_true] at hw
      simp [hw, seTraceMarkerBefore]
  · simp only [Bool.not_eq_true] at hfin
    simp only [hfin, Bool.not_false, if_true]
    unfold addCleanupFinalizer memberUpdateSvcExport exportSvc
    by_cases hupd : p.memberUpdateOk = true
    · by_cases hw : p.hubWriteOk = true
      · simp only [hupd, hw, if_true, formatInternalSvcExportName_set_finalizers]
        cases hl : lookupKV w.hub (formatInternalSvcExportName se) <;>
          simp [hl, seTraceMarkerBefore, hasFin_after_append]
      · simp only [Bool.not_eq_true] at hw
        simp [hupd, hw, seTraceMarkerBefore, hasFin_after_append]
    · simp only [Bool.not_eq_true] at hupd
      simp [hupd, seTraceMarkerBefore]

/-- C6: in every reconciliation pass of the Export Reconciler, under every
input state and fault injection, each hub-side write of the export projection
happens only after the cleanup finalizer is already persisted on the member
store's ServiceExport — either it was present when the pass began, or a
successful member-store update that writes a ServiceExport carrying it
strictly precedes the hub write in the mutation trace. -/
theorem C6_cleanup_finalizer_persisted_before_hub_write (p : SEParams) (w : SEWorld) :
    seTraceMarkerBefore ((w.svcExport.map hasSvcExportCleanupFinalizer).getD false)
      (svcExportReconcile p w).ops = true := by
  unfold svcExportReconcile
  cases hse : w.svcExport with
  | none => rfl
  | some se =>
    simp only [Option.map_some, Option.getD_some]
    by_cases hclean : isSvcExportCleanupNeeded se = true
    · simp only [hclean, if_true]
      exact seTraceMarkerBefore_of_no_hub_writes _ (unexportSvc_no_hub_writes p w se) _
    · simp only [Bool.not_eq_true] at hclean
      simp only [hclean, Bool.false_eq_true, if_false]
      by_cases habs : svcAbsentOrDeleted w.svc = true
      · simp only [habs, if_true]
        exact seTraceMarkerBefore_of_no_hub_writes _ (svcExportOnSvcNotFound_no_hub_writes p w se) _
      · simp only [Bool.not_eq_true] at habs
        simp only [habs, Bool.false_eq_true, if_false]
        cases hsvc : w.svc with
        | none => rfl
        | some svc =>
          by_cases helig : p.eligible svc = true
          · simp only [helig, Bool.not_true, Bool.false_eq_true, if_false]
            exact seTraceMarkerBefore_eligible p w se svc
          · simp only [Bool.not_eq_true] at helig
            simp only [helig, Bool.not_false, if_true]
            exact seTraceMarkerBefore_of_no_hub_writes _
              (svcExportOnSvcIneligible_no_hub_writes p w se) _

/-! Claim C3. -/

theorem find_valid_in_updated (l : List Condition) (c : Condition)
    (h : c.type = serviceExportValid) :
    (l.filter (fun c' => c'.type != serviceExportValid) ++ [c]).find?
      (fun c' => c'.type == serviceExportValid) = some c := by
  induction l with
  | nil => simp [h]
  | cons d rest ih => by_cases hd : d.type = serviceExportValid <;> simp [hd, ih]

theorem findStatusCondition_invalidSvcNotFoundConds (now : Nat) (se : ServiceExport) :
    findStatusCondition (invalidSvcNotFoundConds now se) serviceExportValid =
      some { type := serviceExportValid, status := conditionFalse, lastTransitionTime := now,
             reason := "ServiceNotFound",
             message := "service " ++ se.ns ++ "/" ++ se.name ++ " is not found" } := by
  unfold findStatusCondition invalidSvcNotFoundConds
  exact find_valid_in_updated _ _ rfl

theorem findStatusCondition_invalidSvcIneligibleConds (now : Nat) (se : ServiceExport) :
    findStatusCondition (invalidSvcIneligibleConds now se) serviceExportValid =
      some { type := serviceExportValid, status := conditionFalse, lastTransitionTime := now,
             reason := "ServiceIneligible",
             message := "service " ++ se.ns ++ "/" ++ se.name ++
               " is not eligible for export" } := by
  unfold findStatusCondition invalidSvcIneligibleConds
  exact find_valid_in_updated _ _ rfl

theorem mark_notfound_spec (p : SEParams) (w : SEWorld) (se : ServiceExport)
    (hupd : p.memberUpdateOk = true) :
    (markSvcExportAsInvalidSvcNotFound p w se).ops =
      [SEOp.memberUpdate { se with conditions := invalidSvcNotFoundConds p.now se }] ∧
    (markSvcExportAsInvalidSvcNotFound p w se).err = none := by
  unfold markSvcExportAsInvalidSvcNotFound memberUpdateSvcExport
  simp [hupd]

theorem mark_ineligible_spec (p : SEParams) (w : SEWorld) (se : ServiceExport)
    (hupd : p.memberUpdateOk = true) :
    (markSvcExportAsInvalidSvcIneligible p w se).ops =
      [SEOp.memberUpdate { se with conditions := invalidSvcIneligibleConds p.now se }] ∧
    (markSvcExportAsInvalidSvcIneligible p w se).err = none := by
  unfold markSvcExportAsInvalidSvcIneligible memberUpdateSvcExport
  simp [hupd]

theorem unexportSvc_err_none (p : SEParams) (w : SEWorld) (se : ServiceExport)
    (hupd : p.memberUpdateOk = true) :
    (unexportSvc p w se).1.err = none := by
  unfold unexportSvc removeSvcExportCleanupFinalizer memberUpdateSvcExport
  cases hl : lookupKV w.hub (formatInternalSvcExportName se) <;> simp [hl, hupd]

theorem unexportSvc_ops_shape (p : SEParams) (w : SEWorld) (se : ServiceExport)
    (hupd : p.memberUpdateOk = true) :
    (unexportSvc p w se).1.ops = [] ∨
    (unexportSvc p w se).1.ops =
      [SEOp.hubDelete (formatInternalSvcExportName se),
       SEOp.memberUpdate (unexportSvc p w se).2] := by
  unfold unexportSvc removeSvcExportCleanupFinalizer memberUpdateSvcExport
  cases hl : lookupKV w.hub (formatInternalSvcExportName se)
  · left
    simp [hl]
  · right
    simp [hl, hupd]

theorem unexportSvc_snd_identity (p : SEParams) (w : SEWorld) (se : ServiceExport) :
    (unexportSvc p w se).2.ns = se.ns ∧ (unexportSvc p w se).2.name = se.name := by
  unfold unexportSvc removeSvcExportCleanupFinalizer memberUpdateSvcExport
  cases hl : lookupKV w.hub (formatInternalSvcExportName se) <;> simp [hl]

theorem onSvcNotFound_writes_reason (p : SEParams) (w : SEWorld) (se : ServiceExport)
    (hupd : p.memberUpdateOk = true) :
    ∃ pre se2, (svcExportOnSvcNotFound p w se).ops = pre ++ [SEOp.memberUpdate se2] ∧
      findStatusCondition se2.conditions serviceExportValid =
        some { type := serviceExportValid, status := conditionFalse,
               lastTransitionTime := p.now, reason := "ServiceNotFound",
               message := "service " ++ se.ns ++ "/" ++ se.name ++ " is not found" } := by
  unfold svcExportOnSvcNotFound
  by_cases hfin : hasSvcExportCleanupFinalizer se = true
  · simp only [hfin, if_true]
    have herr := unexportSvc_err_none p w se hupd
    have hid := unexportSvc_snd_identity p w se
    rcases hpair : unexportSvc p w se with ⟨o, se2⟩
    rw [hpair] at herr hid
    simp only at herr hid
    simp only [hpair, herr]
    refine ⟨o.ops, { se2 with conditions := invalidSvcNotFoundConds p.now se2 }, ?_, ?_⟩
    · rw [(mark_notfound_spec p o.world se2 hupd).1]
    · rw [findStatusCondition_invalidSvcNotFoundConds, hid.1, hid.2]
  · simp only [Bool.not_eq_true] at hfin
    simp only [hfin, Bool.false_eq_true, if_false]
    refine ⟨[], { se with conditions := invalidSvcNotFoundConds p.now se }, ?_, ?_⟩
    · rw [(mark_notfound_spec p w se hupd).1]
      rfl
    · rw [findStatusCondition_invalidSvcNotFoundConds]

theorem onSvcIneligible_writes_reason (p : SEParams) (w : SEWorld) (se : ServiceExport)
    (hupd : p.memberUpdateOk = true) :
    ∃ pre se2, (svcExportOnSvcIneligible p w se).ops = pre ++ [SEOp.memberUpdate se2] ∧
      findStatusCondition se2.conditions serviceExportValid =
        some { type := serviceExportValid, status := conditionFalse,
               lastTransitionTime := p.now, reason := "ServiceIneligible",
               message := "service " ++ se.ns ++ "/" ++ se.name ++
                 " is not eligible for export" } := by
  unfold svcExportOnSvcIneligible
  by_cases hfin : hasSvcExportCleanupFinalizer se = true
  · simp only [hfin, if_true]
    have herr := unexportSvc_err_none p w se hupd
    have hid := unexportSvc_snd_identity p w se
    rcases hpair : unexportSvc p w se with ⟨o, se2⟩
    rw [hpair] at herr hid
    simp only at herr hid
    simp only [hpair, herr]
    refine ⟨o.ops, { se2 with conditions := invalidSvcIneligibleConds p.now se2 }, ?_, ?_⟩
    · rw [(mark_ineligible_spec p o.world se2 hupd).1]
    · rw [findStatusCondition_invalidSvcIneligibleConds, hid.1, hid.2]
  · simp only [Bool.not_eq_true] at hfin
    simp only [hfin, Bool.false_eq_true, if_false]
    refine ⟨[], { se with conditions := invalidSvcIneligibleConds p.now se }, ?_, ?_⟩
    · rw [(mark_ineligible_spec p w se hupd).1]
      rfl
    · rw [findStatusCondition_invalidSvcIneligibleConds]

/-- The ServiceExport of the concrete C3 run: no finalizer, not scheduled for
deletion. -/
def c3SvcExport : ServiceExport :=
  { ns := "work", name := "app", finalizers := [], deletionTimestamp := none, conditions := [] }

/-- The C3 world: the Service the intent refers to is absent. -/
def c3World : SEWorld := { svcExport := some c3SvcExport, svc := none, hub := [] }

/-- C3: counterexample — a pass over an intent whose Service is absent writes
a Valid=False condition whose reason is the literal "ServiceNotFound"; no
condition with reason "SourceNotFound" (the reason the claim states) appears
anywhere in the resulting condition set. -/
theorem C3_counterexample_reason_literals :
    ((svcExportReconcile okSEParams c3World).world.svcExport.map
      (fun se => se.conditions.all (fun c => c.reason != "SourceNotFound"))) = some true ∧
    ((svcExportReconcile okSEParams c3World).world.svcExport.map
      (fun se => findStatusCondition se.conditions serviceExportValid)) =
      some (some { type := serviceExportValid, status := conditionFalse,
                   lastTransitionTime := 7, reason := "ServiceNotFound",
                   message := "service work/app is not found" }) := by
  decide

/-- C3 (amended): with the reason strings the code actually writes — on every
pass (member updates succeeding) that finds the intent, does not take the
cleanup path, and sees the Source Object absent or deleted, the last member
write of the pass persists a ServiceExport whose Valid condition is False
with reason "ServiceNotFound"; when the Source Object exists but fails the
eligibility predicate, the same holds with reason "ServiceIneligible". -/
theorem C3_amended_reason_strings (p : SEParams) (w : SEWorld) (se : ServiceExport)
    (hse : w.svcExport = some se)
    (hclean : isSvcExportCleanupNeeded se = false)
    (hupd : p.memberUpdateOk = true) :
    (svcAbsentOrDeleted w.svc = true →
      ∃ pre se2, (svcExportReconcile p w).ops = pre ++ [SEOp.memberUpdate se2] ∧
        findStatusCondition se2.conditions serviceExportValid =
          some { type := serviceExportValid, status := conditionFalse,
                 lastTransitionTime := p.now, reason := "ServiceNotFound",
                 message := "service " ++ se.ns ++ "/" ++ se.name ++ " is not found" }) ∧
    (∀ svc, w.svc = some svc → isSvcDeleted svc = false → p.eligible svc = false →
      ∃ pre se2, (svcExportReconcile p w).ops = pre ++ [SEOp.memberUpdate se2] ∧
        findStatusCondition se2.conditions serviceExportValid =
          some { type := serviceExportValid, status := conditionFalse,
                 lastTransitionTime := p.now, reason := "ServiceIneligible",
                 message := "service " ++ se.ns ++ "/" ++ se.name ++
                   " is not eligible for export" }) := by
  constructor
  · intro habs
    have hrec : svcExportReconcile p w = svcExportOnSvcNotFound p w se := by
      unfold svcExportReconcile
      rw [hse]
      simp [hclean, habs]
    rw [hrec]
    exact onSvcNotFound_writes_reason p w se hupd
  · intro svc hsvc hdel helig
    have habs : svcAbsentOrDeleted (some svc) = false := by
      simpa [svcAbsentOrDeleted] using hdel
    have hrec : svcExportReconcile p w = svcExportOnSvcIneligible p w se := by
      unfold svcExportReconcile
      rw [hse]
      simp [hclean, hsvc, habs, helig]
    rw [hrec]
    exact onSvcIneligible_writes_reason p w se hupd

/-- Witness for the amended C3 theorem at the concrete C3 instance. -/
theorem C3_amended_witness :
    (svcAbsentOrDeleted c3World.svc = true →
      ∃ pre se2, (svcExportReconcile okSEParams c3World).ops = pre ++ [SEOp.memberUpdate se2] ∧
        findStatusCondition se2.conditions serviceExportValid =
          some { type := serviceExportValid, status := conditionFalse,
                 lastTransitionTime := okSEParams.now, reason := "ServiceNotFound",
                 message := "service " ++ c3SvcExport.ns ++ "/" ++ c3SvcExport.name ++
                   " is not found" }) ∧
    (∀ svc, c3World.svc = some svc → isSvcDeleted svc = false →
        okSEParams.eligible svc = false →
      ∃ pre se2, (svcExportReconcile okSEParams c3World).ops = pre ++ [SEOp.memberUpdate se2] ∧
        findStatusCondition se2.conditions serviceExportValid =
          some { type := serviceExportValid, status := conditionFalse,
                 lastTransitionTime := okSEParams.now, reason := "ServiceIneligible",
                 message := "service " ++ c3SvcExport.ns ++ "/" ++ c3SvcExport.name ++
                   " is not eligible for export" }) :=
  C3_amended_reason_strings okSEParams c3World c3SvcExport rfl (by decide) rfl

/-! Claim C9. -/

/-- The ServiceExport of the C9 counterexample: scheduled for deletion but
not yet carrying the cleanup finalizer. -/
def c9SvcExport : ServiceExport :=
  { ns := "work", name := "app", finalizers := [], deletionTimestamp := some 5, conditions := [] }

/-- An eligible Service backing the C9 counterexample. -/
def c9Svc : Service :=
  { deletionTimestamp := none,
    ports := [{ name := "http", protocol := "TCP", appProtocol := "",
                port := 80, targetPort := Sum.inl 8080 }] }

/-- The C9 world. -/
def c9World : SEWorld := { svcExport := some c9SvcExport, svc := some c9Svc, hub := [] }

/-- C9: counterexample — on a store state holding a deletion-scheduled intent
without the cleanup finalizer and an eligible Service, the first pass exports
(the projection appears on the hub) while the second pass, seeing the
finalizer the first pass added on a deletion-scheduled intent, unexports (the
projection disappears): the two passes do not leave identical hub content. -/
theorem C9_counterexample_two_passes_differ :
    lookupKV (svcExportReconcile okSEParams c9World).world.hub
        (formatInternalSvcExportName c9SvcExport) = some (updateInternalSvcExport c9Svc) ∧
    lookupKV (svcExportReconcile okSEParams
          (svcExportReconcile okSEParams c9World).world).world.hub
        (formatInternalSvcExportName c9SvcExport) = none ∧
    (svcExportReconcile okSEParams (svcExportReconcile okSEParams c9World).world).world.hub ≠
      (svcExportReconcile okSEParams c9World).world.hub := by
  decide

/-- The amended C9 hypothesis: the store's Export Intent, if present, is not
scheduled for deletion. -/
def svcExportNotDeleting (w : SEWorld) : Bool :=
  match w.svcExport with
  | some se => se.deletionTimestamp.isNone
  | none => true

theorem hasFin_after_filter (se : ServiceExport) :
    hasSvcExportCleanupFinalizer
      { se with finalizers :=
          se.finalizers.filter (fun f => f != svcExportCleanupFinalizer) } = false := by
  simp [hasSvcExportCleanupFinalizer]

theorem hasFin_set_conditions (se : ServiceExport) (conds : List Condition) :
    hasSvcExportCleanupFinalizer { se with conditions := conds } =
      hasSvcExportCleanupFinalizer se := rfl

theorem formatInternalSvcExportName_set_conditions (se : ServiceExport) (conds : List Condition) :
    formatInternalSvcExportName { se with conditions := conds } =
      formatInternalSvcExportName se := rfl

theorem memberUpdate_world (p : SEParams) (w : SEWorld) (se : ServiceExport) :
    (memberUpdateSvcExport p w se).world.hub = w.hub ∧
    (memberUpdateSvcExport p w se).world.svc = w.svc := by
  unfold memberUpdateSvcExport
  split <;> simp

theorem mark_notfound_world (p : SEParams) (w : SEWorld) (se : ServiceExport) :
    (markSvcExportAsInvalidSvcNotFound p w se).world.hub = w.hub ∧
    (markSvcExportAsInvalidSvcNotFound p w se).world.svc = w.svc := by
  unfold markSvcExportAsInvalidSvcNotFound
  exact memberUpdate_world _ _ _

theorem mark_ineligible_world (p : SEParams) (w : SEWorld) (se : ServiceExport) :
    (markSvcExportAsInvalidSvcIneligible p w se).world.hub = w.hub ∧
    (markSvcExportAsInvalidSvcIneligible p w se).world.svc = w.svc := by
  unfold markSvcExportAsInvalidSvcIneligible
  exact memberUpdate_world _ _ _

theorem notfound_world_svc (p : SEParams) (w : SEWorld) (se : ServiceExport) :
    (svcExportOnSvcNotFound p w se).world.svc = w.svc := by
  unfold svcExportOnSvcNotFound unexportSvc removeSvcExportCleanupFinalizer
    markSvcExportAsInvalidSvcNotFound memberUpdateSvcExport
  by_cases hfin : hasSvcExportCleanupFinalizer se = true <;>
    by_cases hupd : p.memberUpdateOk = true <;>
      cases hl : lookupKV w.hub (formatInternalSvcExportName se) <;>
        simp [hfin, hupd, hl]

theorem ineligible_world_svc (p : SEParams) (w : SEWorld) (se : ServiceExport) :
    (svcExportOnSvcIneligible p w se).world.svc = w.svc := by
  unfold svcExportOnSvcIneligible unexportSvc removeSvcExportCleanupFinalizer
    markSvcExportAsInvalidSvcIneligible memberUpdateSvcExport
  by_cases hfin : hasSvcExportCleanupFinalizer se = true <;>
    by_cases hupd : p.memberUpdateOk = true <;>
      cases hl : lookupKV w.hub (formatInternalSvcExportName se) <;>
        simp [hfin, hupd, hl]

theorem notfound_world_hub (p : SEParams) (w : SEWorld) (se : ServiceExport) :
    (svcExportOnSvcNotFound p w se).world.hub =
      (if hasSvcExportCleanupFinalizer se &&
          (lookupKV w.hub (formatInternalSvcExportName se)).isSome
       then eraseKV w.hub (formatInternalSvcExportName se) else w.hub) := by
  unfold svcExportOnSvcNotFound unexportSvc removeSvcExportCleanupFinalizer
    markSvcExportAsInvalidSvcNotFound memberUpdateSvcExport
  by_cases hfin : hasSvcExportCleanupFinalizer se = true <;>
    by_cases hupd : p.memberUpdateOk = true <;>
      cases hl : lookupKV w.hub (formatInternalSvcExportName se) <;>
        simp [hfin, hupd, hl]

theorem ineligible_world_hub (p : SEParams) (w : SEWorld) (se : ServiceExport) :
    (svcExportOnSvcIneligible p w se).world.hub =
      (if hasSvcExportCleanupFinalizer se &&
          (lookupKV w.hub (formatInternalSvcExportName se)).isSome
       then eraseKV w.hub (formatInternalSvcExportName se) else w.hub) := by
  unfold svcExportOnSvcIneligible unexportSvc removeSvcExportCleanupFinalizer
    markSvcExportAsInvalidSvcIneligible memberUpdateSvcExport
  by_cases hfin : hasSvcExportCleanupFinalizer se = true <;>
    by_cases hupd : p.memberUpdateOk = true <;>
      cases hl : lookupKV w.hub (formatInternalSvcExportName se) <;>
        simp [hfin, hupd, hl]

theorem notfound_world_svcExport (p : SEParams) (w : SEWorld) (se : ServiceExport)
    (hse : w.svcExport = some se) (hdel : se.deletionTimestamp = none) :
    ∃ se2, (svcExportOnSvcNotFound p w se).world.svcExport = some se2 ∧
      se2.deletionTimestamp = none ∧
      formatInternalSvcExportName se2 = formatInternalSvcExportName se ∧
      (hasSvcExportCleanupFinalizer se2 = false ∨
        lookupKV (svcExportOnSvcNotFound p w se).world.hub
          (formatInternalSvcExportName se2) = none) := by
  unfold svcExportOnSvcNotFound unexportSvc removeSvcExportCleanupFinalizer
    markSvcExportAsInvalidSvcNotFound memberUpdateSvcExport
  by_cases hfin : hasSvcExportCleanupFinalizer se = true
  · by_cases hupd : p.memberUpdateOk = true
    · cases hl : lookupKV w.hub (formatInternalSvcExportName se)
      · refine ⟨{ se with conditions := invalidSvcNotFoundConds p.now se }, ?_, ?_, rfl, ?_⟩
        · simp [hfin, hupd, hl, hdel]
        · simp [hdel]
        · right
          simp only [hfin, hupd, hl]
          simpa [formatInternalSvcExportName] using hl
      · refine ⟨{ se with
            finalizers := se.finalizers.filter (fun f => f != svcExportCleanupFinalizer),
            conditions := invalidSvcNotFoundConds p.now
              { se with finalizers :=
                  se.finalizers.filter (fun f => f != svcExportCleanupFinalizer) } }, ?_, ?_, rfl, ?_⟩
        · simp [hfin, hupd, hl, hdel]
        · simp [hdel]
        · left
          simpa using hasFin_after_filter se
    · cases hl : lookupKV w.hub (formatInternalSvcExportName se)
      · refine ⟨se, ?_, hdel, rfl, ?_⟩
        · simp [hfin, hupd, hl, hse]
        · right
          simp [hfin, hupd, hl]
      · refine ⟨se, ?_, hdel, rfl, ?_⟩
        · simp [hfin, hupd, hl, hse]
        · right
          simp [hfin, hupd, hl, lookupKV_eraseKV_self]
  · by_cases hupd : p.memberUpdateOk = true
    · refine ⟨{ se with conditions := invalidSvcNotFoundConds p.now se }, ?_, ?_, rfl, ?_⟩
      · simp [hfin, hupd, hdel]
      · simp [hdel]
      · left
        simpa [hasFin_set_conditions] using hfin
    · refine ⟨se, ?_, hdel, rfl, ?_⟩
      · simp [hfin, hupd, hse]
      · left
        simpa using hfin

theorem ineligible_world_svcExport (p : SEParams) (w : SEWorld) (se : ServiceExport)
    (hse : w.svcExport = some se) (hdel : se.deletionTimestamp = none) :
    ∃ se2, (svcExportOnSvcIneligible p w se).world.svcExport = some se2 ∧
      se2.deletionTimestamp = none ∧
      formatInternalSvcExportName se2 = formatInternalSvcExportName se ∧
      (hasSvcExportCleanupFinalizer se2 = false ∨
        lookupKV (svcExportOnSvcIneligible p w se).world.hub
          (formatInternalSvcExportName se2) = none) := by
  unfold svcExportOnSvcIneligible unexportSvc removeSvcExportCleanupFinalizer
    markSvcExportAsInvalidSvcIneligible memberUpdateSvcExport
  by_cases hfin : hasSvcExportCleanupFinalizer se = true
  · by_cases hupd : p.memberUpdateOk = true
    · cases hl : lookupKV w.hub (formatInternalSvcExportName se)
      · refine ⟨{ se with conditions := invalidSvcIneligibleConds p.now se }, ?_, ?_, rfl, ?_⟩
        · simp [hfin, hupd, hl, hdel]
        · simp [hdel]
        · right
          simp only [hfin, hupd, hl]
          simpa [formatInternalSvcExportName] using hl
      · refine ⟨{ se with
            finalizers := se.finalizers.filter (fun f => f != svcExportCleanupFinalizer),
            conditions := invalidSvcIneligibleConds p.now
              { se with finalizers :=
                  se.finalizers.filter (fun f => f != svcExportCleanupFinalizer) } }, ?_, ?_, rfl, ?_⟩
        · simp [hfin, hupd, hl, hdel]
        · simp [hdel]
        · left
          simpa using hasFin_after_filter se
    · cases hl : lookupKV w.hub (formatInternalSvcExportName se)
      · refine ⟨se, ?_, hdel, rfl, ?_⟩
        · simp [hfin, hupd, hl, hse]
        · right
          simp [hfin, hupd, hl]
      · refine ⟨se, ?_, hdel, rfl, ?_⟩
        · simp [hfin, hupd, hl, hse]
        · right
          simp [hfin, hupd, hl, lookupKV_eraseKV_self]
  · by_cases hupd : p.memberUpdateOk = true
    · refine ⟨{ se with conditions := invalidSvcIneligibleConds p.now se }, ?_, ?_, rfl, ?_⟩
      · simp [hfin, hupd, hdel]
      · simp [hdel]
      · left
        simpa [hasFin_set_conditions] using hfin
    · refine ⟨se, ?_, hdel, rfl, ?_⟩
      · simp [hfin, hupd, hse]
      · left
        simpa using hfin

theorem eligible_world_svc (p : SEParams) (w : SEWorld) (se : ServiceExport) (svc : Service) :
    (svcExportOnSvcEligible p w se svc).world.svc = w.svc := by
  unfold svcExportOnSvcEligible addCleanupFinalizer exportSvc memberUpdateSvcExport
  by_cases hfin : hasSvcExportCleanupFinalizer se = true <;>
    by_cases hupd : p.memberUpdateOk = true <;>
      by_cases hw : p.hubWriteOk = true <;>
        cases hl : lookupKV w.hub (formatInternalSvcExportName se) <;>
          simp [hfin, hupd, hw, hl, formatInternalSvcExportName_set_finalizers]

theorem eligible_world_hub (p : SEParams) (w : SEWorld) (se : ServiceExport) (svc : Service) :
    (svcExportOnSvcEligible p w se svc).world.hub =
      (if (hasSvcExportCleanupFinalizer se || p.memberUpdateOk) && p.hubWriteOk
       then putKV w.hub (formatInternalSvcExportName se) (updateInternalSvcExport svc)
       else w.hub) := by
  unfold svcExportOnSvcEligible addCleanupFinalizer exportSvc memberUpdateSvcExport
  by_cases hfin : hasSvcExportCleanupFinalizer se = true <;>
    by_cases hupd : p.memberUpdateOk = true <;>
      by_cases hw : p.hubWriteOk = true <;>
        cases hl : lookupKV w.hub (formatInternalSvcExportName se) <;>
          simp [hfin, hupd, hw, hl, formatInternalSvcExportName_set_finalizers]

theorem exportSvc_world_svcExport (p : SEParams) (w : SEWorld) (se : ServiceExport)
    (svc : Service) :
    (exportSvc p w se svc).world.svcExport = w.svcExport := by
  unfold exportSvc
  by_cases hw : p.hubWriteOk = true <;>
    cases hl : lookupKV w.hub (formatInternalSvcExportName se) <;> simp [hw, hl]

theorem eligible_world_svcExport (p : SEParams) (w : SEWorld) (se : ServiceExport) (svc : Service)
    (hse : w.svcExport = some se) (hdel : se.deletionTimestamp = none) :
    ∃ se2, (svcExportOnSvcEligible p w se svc).world.svcExport = some se2 ∧
      se2.deletionTimestamp = none ∧
      formatInternalSvcExportName se2 = formatInternalSvcExportName se ∧
      (hasSvcExportCleanupFinalizer se2 || p.memberUpdateOk) =
        (hasSvcExportCleanupFinalizer se || p.memberUpdateOk) := by
  unfold svcExportOnSvcEligible addCleanupFinalizer memberUpdateSvcExport
  by_cases hfin : hasSvcExportCleanupFinalizer se = true
  · refine ⟨se, ?_, hdel, rfl, rfl⟩
    simp [hfin, exportSvc_world_svcExport, hse]
  · by_cases hupd : p.memberUpdateOk = true
    · refine ⟨{ se with finalizers := se.finalizers ++ [svcExportCleanupFinalizer] },
        ?_, ?_, rfl, ?_⟩
      · simp [hfin, hupd, hdel, exportSvc_world_svcExport]
      · simp [hdel]
      · simp [hasFin_after_append se, hupd]
    · refine ⟨se, ?_, hdel, rfl, rfl⟩
      simp [hfin, hupd, hse]

/-- C9 (amended): for every store state in which the Export Intent, if
present, is not scheduled for deletion, running the Export Reconciler twice
in succession with a fixed environment and no intervening external change
leaves identical hub content after the second pass as after the first.  (The
counterexample shows the restriction is necessary: on deletion-scheduled
intents one pass exports and the next unexports, or vice versa.) -/
theorem C9_amended_idempotent_without_deletion (p : SEParams) (w : SEWorld)
    (h : svcExportNotDeleting w = true) :
    (svcExportReconcile p (svcExportReconcile p w).world).world.hub =
      (svcExportReconcile p w).world.hub := by
  cases hse : w.svcExport with
  | none =>
    have h1 : svcExportReconcile p w = { world := w, ops := [], err := none } := by
      unfold svcExportReconcile
      rw [hse]
    rw [h1, h1]
  | some se =>
    have hdel : se.deletionTimestamp = none := by
      unfold svcExportNotDeleting at h
      rw [hse] at h
      exact Option.isNone_iff_eq_none.mp h
    have hclean : isSvcExportCleanupNeeded se = false := by
      simp [isSvcExportCleanupNeeded, hdel]
    by_cases habs : svcAbsentOrDeleted w.svc = true
    · have h1 : svcExportReconcile p w = svcExportOnSvcNotFound p w se := by
        unfold svcExportReconcile
        rw [hse]
        simp [hclean, habs]
      rw [h1]
      obtain ⟨se2, hse2, hdel2, hfmt2, hsafe⟩ := notfound_world_svcExport p w se hse hdel
      have hsvc1 := notfound_world_svc p w se
      have hclean2 : isSvcExportCleanupNeeded se2 = false := by
        simp [isSvcExportCleanupNeeded, hdel2]
      have habs2 : svcAbsentOrDeleted (svcExportOnSvcNotFound p w se).world.svc = true := by
        rw [hsvc1]
        exact habs
      have h2 : svcExportReconcile p (svcExportOnSvcNotFound p w se).world =
          svcExportOnSvcNotFound p (svcExportOnSvcNotFound p w se).world se2 := by
        unfold svcExportReconcile
        rw [hse2]
        simp [hclean2, habs2]
      rw [h2, notfound_world_hub]
      rcases hsafe with h3 | h3
      · simp [h3]
      · simp [h3]
    · simp only [Bool.not_eq_true] at habs
      cases hsvc : w.svc with
      | none =>
        rw [hsvc] at habs
        simp [svcAbsentOrDeleted] at habs
      | some svc =>
        have hdelsvc : isSvcDeleted svc = false := by
          rw [hsvc] at habs
          simpa [svcAbsentOrDeleted] using habs
        have habs' : svcAbsentOrDeleted (some svc) = false := by
          simpa [svcAbsentOrDeleted] using hdelsvc
        by_cases helig : p.eligible svc = true
        · have h1 : svcExportReconcile p w = svcExportOnSvcEligible p w se svc := by
            unfold svcExportReconcile
            rw [hse]
            simp [hclean, hsvc, habs', helig]
          rw [h1]
          obtain ⟨se2, hse2, hdel2, hfmt2, hcond2⟩ :=
            eligible_world_svcExport p w se svc hse hdel
          have hsvc1 := eligible_world_svc p w se svc
          have hclean2 : isSvcExportCleanupNeeded se2 = false := by
            simp [isSvcExportCleanupNeeded, hdel2]
          have h2 : svcExportReconcile p (svcExportOnSvcEligible p w se svc).world =
              svcExportOnSvcEligible p (svcExportOnSvcEligible p w se svc).world se2 svc := by
            unfold svcExportReconcile
            rw [hse2]
            simp [hclean2, hsvc1, hsvc, habs', helig]
          rw [h2, eligible_world_hub, eligible_world_hub, hcond2, hfmt2]
          by_cases hC : ((hasSvcExportCleanupFinalizer se || p.memberUpdateOk) &&
              p.hubWriteOk) = true
          · simp [hC, putKV_putKV_self]
          · simp only [Bool.not_eq_true] at hC
            simp [hC]
        · simp only [Bool.not_eq_true] at helig
          have h1 : svcExportReconcile p w = svcExportOnSvcIneligible p w se := by
            unfold svcExportReconcile
            rw [hse]
            simp [hclean, hsvc, habs', helig]
          rw [h1]
          obtain ⟨se2, hse2, hdel2, hfmt2, hsafe⟩ := ineligible_world_svcExport p w se hse hdel
          have hsvc1 := ineligible_world_svc p w se
          have hclean2 : isSvcExportCleanupNeeded se2 = false := by
            simp [isSvcExportCleanupNeeded, hdel2]
          have h2 : svcExportReconcile p (svcExportOnSvcIneligible p w se).world =
              svcExportOnSvcIneligible p (svcExportOnSvcIneligible p w se).world se2 := by
            unfold svcExportReconcile
            rw [hse2]
            simp [hclean2, hsvc1, hsvc, habs', helig]
          rw [h2, ineligible_world_hub]
          rcases hsafe with h3 | h3
          · simp [h3]
          · simp [h3]

/-- The concrete non-deleting world of the C9 witness: a fresh intent over an
eligible Service. -/
def c9NotDeletingWorld : SEWorld :=
  { svcExport := some c3SvcExport, svc := some c9Svc, hub := [] }

/-- Witness for the amended C9 theorem at the concrete instance. -/
theorem C9_amended_witness :
    (svcExportReconcile okSEParams
        (svcExportReconcile okSEParams c9NotDeletingWorld).world).world.hub =
      (svcExportReconcile okSEParams c9NotDeletingWorld).world.hub :=
  C9_amended_idempotent_without_deletion okSEParams c9NotDeletingWorld (by decide)

end Mcn
